import Mathlib

/-!
Shallow embedding of the voter registration flow of `CYOP300W2.py`
(the second half of the file, after the `=== main (1).py ===` marker).

The interactive program reads a stream of lines from standard input.  We model
that stream as a `List String`; each call to Python's `input()` consumes the
head of the list.  A prompt loop that runs out of scripted input is modelled by
a distinguished `stuck` result (the real program would block waiting for the
operator, or crash with `EOFError` on a closed stream); it is not a terminal
outcome of the flow.

Python string primitives (`str.strip`, `str.lower`, `str.upper`, `str.isdigit`,
`int(...)` on digit strings) are embedded for the ASCII fragment, which covers
every string the flow itself produces or compares against.
-/

namespace CYOP300

/-! ### Python string primitives (ASCII fragment) -/

/-- Characters removed by Python `str.strip()` (ASCII whitespace). -/
def isSpaceChar (c : Char) : Bool :=
  decide (c.toNat = 32 ∨ c.toNat = 9 ∨ c.toNat = 10 ∨ c.toNat = 13 ∨
          c.toNat = 11 ∨ c.toNat = 12)

/-- Python `str.isdigit` test for a single ASCII character. -/
def isDigitChar (c : Char) : Bool :=
  decide (48 ≤ c.toNat ∧ c.toNat ≤ 57)

/-- ASCII letter test, as used by the regex class `[A-Za-z]`. -/
def isAlphaChar (c : Char) : Bool :=
  decide ((65 ≤ c.toNat ∧ c.toNat ≤ 90) ∨ (97 ≤ c.toNat ∧ c.toNat ≤ 122))

/-- ASCII case mapping of Python `str.lower` on one character. -/
def lowerChar (c : Char) : Char :=
  if 65 ≤ c.toNat ∧ c.toNat ≤ 90 then Char.ofNat (c.toNat + 32) else c

/-- ASCII case mapping of Python `str.upper` on one character. -/
def upperChar (c : Char) : Char :=
  if 97 ≤ c.toNat ∧ c.toNat ≤ 122 then Char.ofNat (c.toNat - 32) else c

/-- Python `str.strip()` on the list of characters: drop leading and trailing
whitespace. -/
def stripChars (l : List Char) : List Char :=
  ((l.dropWhile isSpaceChar).reverse.dropWhile isSpaceChar).reverse

/-- Python `str.strip()`. -/
def pyStrip (s : String) : String := ⟨stripChars s.data⟩

/-- Python `str.lower()`. -/
def pyLower (s : String) : String := ⟨s.data.map lowerChar⟩

/-- Python `str.upper()`. -/
def pyUpper (s : String) : String := ⟨s.data.map upperChar⟩

/-- Python `str.isdigit()`: non-empty and all characters digits. -/
def pyIsDigit (s : String) : Bool := !s.data.isEmpty && s.data.all isDigitChar

/-- Value of a digit string, as computed by Python `int(...)` on a string that
passed `isdigit`. -/
def digitsToNat (l : List Char) : Nat :=
  l.foldl (fun acc c => 10 * acc + (c.toNat - 48)) 0

/-! ### Source helpers: `_exit_requested`, `_yes_no` -/

/-- `_exit_requested(text)`: `text.strip().lower() in {"exit", "quit"}`. -/
def exitRequested (text : String) : Bool :=
  pyLower (pyStrip text) == "exit" || pyLower (pyStrip text) == "quit"

/-- `_yes_no(value)`: strip and lower, then map y/yes to True, n/no to False,
anything else to None. -/
def yesNo (value : String) : Option Bool :=
  let v := pyLower (pyStrip value)
  if v == "y" || v == "yes" then some true
  else if v == "n" || v == "no" then some false
  else none

/-! ### Field validators: one attempt = one iteration of a getter loop -/

/-- Result of one validation attempt on one raw input line. -/
inductive VOutcome (α : Type) where
  | accepted (v : α)
  | retry
  | cancelRequested
deriving DecidableEq

/-- Loop body of `isValidAge`: strip, check the cancellation token, then
accept a digit string whose value lies in `[0, 120]`. -/
def isValidAgeAttempt (raw : String) : VOutcome Nat :=
  let age := pyStrip raw
  if exitRequested age then .cancelRequested
  else if pyIsDigit age &&
          decide (0 ≤ digitsToNat age.data ∧ digitsToNat age.data ≤ 120) then
    .accepted (digitsToNat age.data)
  else .retry

/-- Full match of the name regex `[A-Za-z][A-Za-z '\-]*`: first character a
letter, the rest letters, spaces, hyphens or apostrophes. -/
def nameOk (l : List Char) : Bool :=
  match l with
  | [] => false
  | c :: t =>
      isAlphaChar c &&
      t.all (fun d => isAlphaChar d || d == ' ' || d == Char.ofNat 39 || d == '-')

/-- Loop body of `firstName`. -/
def firstNameAttempt (raw : String) : VOutcome String :=
  let fName := pyStrip raw
  if exitRequested fName then .cancelRequested
  else if nameOk fName.data then .accepted fName
  else .retry

/-- Loop body of `lastName` (same rule as `firstName`). -/
def lastNameAttempt (raw : String) : VOutcome String :=
  let lName := pyStrip raw
  if exitRequested lName then .cancelRequested
  else if nameOk lName.data then .accepted lName
  else .retry

/-- Loop body of `countryOfCitizenship`: strip, cancellation token, then
`_yes_no`. -/
def countryOfCitizenshipAttempt (raw : String) : VOutcome Bool :=
  let ans := pyStrip raw
  if exitRequested ans then .cancelRequested
  else
    match yesNo ans with
    | some b => .accepted b
    | none => .retry

/-- Full match of the ZIP regex `\d{5}(-\d{4})?`: exactly five digits, or five
digits, a hyphen and four digits. -/
def zipOk (l : List Char) : Bool :=
  match l with
  | [a, b, c, d, e] =>
      isDigitChar a && isDigitChar b && isDigitChar c && isDigitChar d &&
      isDigitChar e
  | [a, b, c, d, e, f, g, h, i, j] =>
      isDigitChar a && isDigitChar b && isDigitChar c && isDigitChar d &&
      isDigitChar e && f == '-' && isDigitChar g && isDigitChar h &&
      isDigitChar i && isDigitChar j
  | _ => false

/-- Loop body of `zipCode`. -/
def zipCodeAttempt (raw : String) : VOutcome String :=
  let z := pyStrip raw
  if exitRequested z then .cancelRequested
  else if zipOk z.data then .accepted z
  else .retry

/-- The values of the `stateOfResidenceHM` dictionary, in source order. -/
def stateOfResidenceHM : List String :=
  ["AL", "AK", "AZ", "AR", "CA", "CO", "CT", "DE", "FL", "GA",
   "HI", "ID", "IL", "IN", "IA", "KS", "KY", "LA", "ME", "MD",
   "MA", "MI", "MN", "MS", "MO", "MT", "NE", "NV", "NH", "NJ",
   "NM", "NY", "NC", "ND", "OH", "OK", "OR", "PA", "RI", "SC",
   "SD", "TN", "TX", "UT", "VT", "VA", "WA", "WV", "WI", "WY",
   "DC", "AS", "GU", "MP", "PR", "UM", "VI"]

/-- Loop body of `stateOfResidence`: strip and uppercase, cancellation token,
then accept a two-letter code present among the dictionary values. -/
def stateOfResidenceAttempt (raw : String) : VOutcome String :=
  let st := pyUpper (pyStrip raw)
  if exitRequested st then .cancelRequested
  else if st.data.length == 2 && stateOfResidenceHM.contains st then .accepted st
  else .retry

/-! ### Getter loops -/

/-- Result of running a prompt loop against the remaining scripted input. -/
inductive GetRes (α : Type) where
  | ok (v : α) (rest : List String)
  | cancel (rest : List String)
  | stuck
deriving DecidableEq

/-- Run a retry-until-valid prompt loop: consume one input per attempt until
the attempt accepts or the cancellation token is recognised. -/
def runGetter (attempt : String → VOutcome α) : List String → GetRes α
  | [] => .stuck
  | raw :: rest =>
    match attempt raw with
    | .accepted v => .ok v rest
    | .cancelRequested => .cancel rest
    | .retry => runGetter attempt rest

/-- `isValidAge()` as a function of the input script. -/
def isValidAge : List String → GetRes Nat := runGetter isValidAgeAttempt

/-- `firstName()` as a function of the input script. -/
def firstName : List String → GetRes String := runGetter firstNameAttempt

/-- `lastName()` as a function of the input script. -/
def lastName : List String → GetRes String := runGetter lastNameAttempt

/-- `countryOfCitizenship()` as a function of the input script. -/
def countryOfCitizenship : List String → GetRes Bool :=
  runGetter countryOfCitizenshipAttempt

/-- `stateOfResidence()` as a function of the input script. -/
def stateOfResidence : List String → GetRes String :=
  runGetter stateOfResidenceAttempt

/-- `zipCode()` as a function of the input script. -/
def zipCode : List String → GetRes String := runGetter zipCodeAttempt

/-! ### The continuation prompt -/

/-- Result of `_ask_continue`: it can only answer a boolean (it has no
cancellation token check) or exhaust the script. -/
inductive AskRes where
  | got (b : Bool) (rest : List String)
  | stuck
deriving DecidableEq

/-- `_ask_continue()`: strip the answer and retry until `_yes_no` accepts. -/
def askContinue : List String → AskRes
  | [] => .stuck
  | raw :: rest =>
    let ans := pyStrip raw
    match yesNo ans with
    | some b => .got b rest
    | none => askContinue rest

/-! ### The guarded step pipeline (`main`) -/

/-- A value collected by a step (the Python values are str, int or bool). -/
inductive Val where
  | s (v : String)
  | n (v : Nat)
  | b (v : Bool)
deriving DecidableEq

/-- `_age_check(value)`: abort with the eligibility message when under 18. -/
def ageCheck (value : Nat) : Option String :=
  if value < 18 then some "Thanks for trying the Voter Registration Application."
  else none

/-- `_citizen_check(value)`: abort with the eligibility message for
non-citizens. -/
def citizenCheck (value : Bool) : Option String :=
  if !value then some "Thanks for trying the Voter Registration Application."
  else none

/-- `_age_check` lifted to collected values (the age getter only produces
`Val.n`; other shapes are unreachable). -/
def ageCheckVal : Val → Option String
  | .n v => ageCheck v
  | _ => none

/-- `_citizen_check` lifted to collected values (the citizenship getter only
produces `Val.b`; other shapes are unreachable). -/
def citizenCheckVal : Val → Option String
  | .b v => citizenCheck v
  | _ => none

/-- Map a function over an accepted value. -/
def VOutcome.map (f : α → β) : VOutcome α → VOutcome β
  | .accepted v => .accepted (f v)
  | .retry => .retry
  | .cancelRequested => .cancelRequested

/-- The age getter producing a tagged value. -/
def isValidAgeV : List String → GetRes Val :=
  runGetter (fun raw => (isValidAgeAttempt raw).map Val.n)

/-- The first-name getter producing a tagged value. -/
def firstNameV : List String → GetRes Val :=
  runGetter (fun raw => (firstNameAttempt raw).map Val.s)

/-- The last-name getter producing a tagged value. -/
def lastNameV : List String → GetRes Val :=
  runGetter (fun raw => (lastNameAttempt raw).map Val.s)

/-- The citizenship getter producing a tagged value. -/
def countryOfCitizenshipV : List String → GetRes Val :=
  runGetter (fun raw => (countryOfCitizenshipAttempt raw).map Val.b)

/-- The state getter producing a tagged value. -/
def stateOfResidenceV : List String → GetRes Val :=
  runGetter (fun raw => (stateOfResidenceAttempt raw).map Val.s)

/-- The ZIP getter producing a tagged value. -/
def zipCodeV : List String → GetRes Val :=
  runGetter (fun raw => (zipCodeAttempt raw).map Val.s)

/-- One entry of the `steps` list in `main`: key, getter, optional guard. -/
structure Step where
  key : String
  getter : List String → GetRes Val
  postCheck : Option (Val → Option String)

/-- The `steps` list of `main`, in source order. -/
def steps : List Step :=
  [⟨"first", firstNameV, none⟩,
   ⟨"last", lastNameV, none⟩,
   ⟨"age", isValidAgeV, some ageCheckVal⟩,
   ⟨"citizen", countryOfCitizenshipV, some citizenCheckVal⟩,
   ⟨"state", stateOfResidenceV, none⟩,
   ⟨"zip", zipCodeV, none⟩]

/-- Terminal outcome of a run, or `stuck` when the script ran out while a
prompt was still waiting for input. -/
inductive Outcome where
  | completed (result : List (String × Val))
  | cancelled (reason : String)
  | stuck
deriving DecidableEq

/-- The step loop of `main`: for each step ask the continuation question
(declining raises the generic message), run the getter (`_require` raises the
generic message on the cancellation token), run the guard (aborting with the
guard's own message), then store the value and advance.  The second component
is the `results` dictionary at the moment the run ends. -/
def runStepsFrom : List Step → List String → List (String × Val) →
    Outcome × List (String × Val)
  | [], _, results => (.completed results, results)
  | st :: rest, inputs, results =>
    match askContinue inputs with
    | .stuck => (.stuck, results)
    | .got false _ => (.cancelled "Registration canceled. Goodbye!", results)
    | .got true inputs1 =>
      match st.getter inputs1 with
      | .stuck => (.stuck, results)
      | .cancel _ => (.cancelled "Registration canceled. Goodbye!", results)
      | .ok v inputs2 =>
        match st.postCheck with
        | some chk =>
          match chk v with
          | some reason => (.cancelled reason, results)
          | none => runStepsFrom rest inputs2 (results ++ [(st.key, v)])
        | none => runStepsFrom rest inputs2 (results ++ [(st.key, v)])

/-- `main()`: the initial continuation question (declining uses the initial
phrasing), then the uniform step loop over `steps` with a fresh empty
`results` dictionary. -/
def main (inputs : List String) : Outcome × List (String × Val) :=
  match askContinue inputs with
  | .stuck => (.stuck, [])
  | .got false _ =>
      (.cancelled "Thanks for trying the Voter Registration Application. Goodbye!", [])
  | .got true rest => runStepsFrom steps rest []

/-! ### Auxiliary definitions used to state the claims -/

/-- The digits of `n` written in base ten, most significant first. -/
def natToDigits (n : Nat) : List Char :=
  if h : n < 10 then [Char.ofNat (48 + n)]
  else natToDigits (n / 10) ++ [Char.ofNat (48 + n % 10)]
decreasing_by exact Nat.div_lt_self (by omega) (by omega)

/-- The decimal string of an integer, with a leading minus sign when
negative. -/
def intDecStr (n : Int) : String :=
  if n < 0 then ⟨Char.ofNat 45 :: natToDigits n.natAbs⟩ else ⟨natToDigits n.natAbs⟩

/-- Claim-side description of a well-formed ZIP string: exactly five digits,
or five digits, a hyphen and four digits. -/
def zipShape (s : String) : Prop :=
  (s.data.length = 5 ∧ ∀ c ∈ s.data, isDigitChar c = true) ∨
  (∃ a b, s.data = a ++ '-' :: b ∧ a.length = 5 ∧ b.length = 4 ∧
    (∀ c ∈ a, isDigitChar c = true) ∧ (∀ c ∈ b, isDigitChar c = true))

/-- The result record with the six fields in step order. -/
def completedRecord (f l : String) (a : Nat) (c : Bool) (st z : String) :
    List (String × Val) :=
  [("first", .s f), ("last", .s l), ("age", .n a),
   ("citizen", .b c), ("state", .s st), ("zip", .s z)]

/-- What holds of every record carried by a `completed` outcome: all six
fields are present in step order, each value was accepted by its field's
validator, and both eligibility guards passed. -/
def completedSpec (r : List (String × Val)) : Prop :=
  ∃ f l a c st z, r = completedRecord f l a c st z ∧
    nameOk f.data = true ∧ nameOk l.data = true ∧
    a ≤ 120 ∧ 18 ≤ a ∧ c = true ∧
    st.data.length = 2 ∧ st ∈ stateOfResidenceHM ∧ zipOk z.data = true

/-! ### Lemmas about `dropWhile` and `stripChars` -/

theorem dropWhile_self (p : α → Bool) (l : List α) :
    (l.dropWhile p).dropWhile p = l.dropWhile p := by
  induction l with
  | nil => rfl
  | cons c t ih =>
    by_cases h : p c
    · simp [List.dropWhile_cons, h, ih]
    · simp [List.dropWhile_cons, h]

theorem dropWhile_head_false (p : α → Bool) :
    ∀ (l : List α) (c : α) (t : List α), l.dropWhile p = c :: t → p c = false := by
  intro l
  induction l with
  | nil => intro c t h; simp [List.dropWhile] at h
  | cons a r ih =>
    intro c t h
    by_cases ha : p a
    · exact ih c t (by simpa [List.dropWhile_cons, ha] using h)
    · rw [List.dropWhile_cons_of_neg ha] at h
      cases h
      simpa using ha

theorem dropWhile_exists_append (p : α → Bool) :
    ∀ l : List α, ∃ t, t ++ l.dropWhile p = l := by
  intro l
  induction l with
  | nil => exact ⟨[], rfl⟩
  | cons a r ih =>
    by_cases ha : p a
    · obtain ⟨t, ht⟩ := ih
      exact ⟨a :: t, by simp [List.dropWhile_cons, ha, ht]⟩
    · exact ⟨[], by simp [List.dropWhile_cons, ha]⟩

theorem dropWhile_eq_self_of_all (p : α → Bool) (l : List α)
    (h : ∀ c ∈ l, p c = false) : l.dropWhile p = l := by
  cases l with
  | nil => rfl
  | cons a r =>
    exact List.dropWhile_cons_of_neg (by simp [h a (by simp)])

theorem stripChars_head_false (l : List Char) {c : Char} {t : List Char}
    (h : stripChars l = c :: t) : isSpaceChar c = false := by
  obtain ⟨s, hs⟩ :=
    dropWhile_exists_append isSpaceChar (l.dropWhile isSpaceChar).reverse
  apply dropWhile_head_false isSpaceChar l c (t ++ s.reverse)
  have h2 := congrArg List.reverse hs
  simp only [List.reverse_append, List.reverse_reverse] at h2
  unfold stripChars at h
  rw [h] at h2
  simpa using h2.symm

theorem stripChars_idem (l : List Char) :
    stripChars (stripChars l) = stripChars l := by
  have hA : (stripChars l).dropWhile isSpaceChar = stripChars l := by
    cases hmr : stripChars l with
    | nil => rfl
    | cons c t =>
      exact List.dropWhile_cons_of_neg (by simp [stripChars_head_false l hmr])
  show ((((stripChars l).dropWhile isSpaceChar).reverse).dropWhile
      isSpaceChar).reverse = stripChars l
  rw [hA]
  unfold stripChars
  rw [List.reverse_reverse, dropWhile_self]

theorem stripChars_eq_self {l : List Char}
    (h : ∀ c ∈ l, isSpaceChar c = false) : stripChars l = l := by
  unfold stripChars
  rw [dropWhile_eq_self_of_all _ _ h,
      dropWhile_eq_self_of_all _ _ (fun c hc => h c (List.mem_reverse.mp hc)),
      List.reverse_reverse]

/-! ### Lemmas about the character maps -/

theorem toNat_ofNat_valid {n : Nat} (h : n < 55296) : (Char.ofNat n).toNat = n := by
  have hv : n.isValidChar := Or.inl h
  rw [Char.ofNat, dif_pos hv]
  rfl

theorem char_toNat_inj {c d : Char} (h : c.toNat = d.toNat) : c = d :=
  Char.ext (UInt32.toNat.inj h)

theorem lowerChar_toNat (c : Char) :
    (lowerChar c).toNat =
      if 65 ≤ c.toNat ∧ c.toNat ≤ 90 then c.toNat + 32 else c.toNat := by
  unfold lowerChar
  split
  · next h => exact toNat_ofNat_valid (by omega)
  · rfl

theorem upperChar_toNat (c : Char) :
    (upperChar c).toNat =
      if 97 ≤ c.toNat ∧ c.toNat ≤ 122 then c.toNat - 32 else c.toNat := by
  unfold upperChar
  split
  · next h => exact toNat_ofNat_valid (by omega)
  · rfl

theorem lowerChar_upperChar (c : Char) :
    lowerChar (upperChar c) = lowerChar c := by
  by_cases h : 97 ≤ c.toNat ∧ c.toNat ≤ 122
  · apply char_toNat_inj
    rw [lowerChar_toNat, lowerChar_toNat, upperChar_toNat, if_pos h,
        if_pos (by omega : 65 ≤ c.toNat - 32 ∧ c.toNat - 32 ≤ 90),
        if_neg (by omega : ¬(65 ≤ c.toNat ∧ c.toNat ≤ 90))]
    omega
  · unfold upperChar
    rw [if_neg h]

theorem isSpaceChar_upperChar (c : Char) :
    isSpaceChar (upperChar c) = isSpaceChar c := by
  unfold isSpaceChar
  rw [upperChar_toNat]
  by_cases h : 97 ≤ c.toNat ∧ c.toNat ≤ 122
  · rw [if_pos h]
    rw [decide_eq_decide]
    omega
  · rw [if_neg h]

theorem lowerChar_eq_self_of_lt {c : Char} (h : c.toNat < 65) :
    lowerChar c = c := by
  unfold lowerChar
  rw [if_neg (by omega)]

/-! ### Lemmas about the Python string operations -/

theorem data_mk (l : List Char) : (⟨l⟩ : String).data = l := rfl

theorem pyStrip_pyStrip (s : String) : pyStrip (pyStrip s) = pyStrip s := by
  simp [pyStrip, stripChars_idem]

theorem pyStrip_pyUpper (s : String) :
    pyStrip (pyUpper s) = pyUpper (pyStrip s) := by
  have hfun : (isSpaceChar ∘ upperChar) = isSpaceChar :=
    funext isSpaceChar_upperChar
  simp only [pyStrip, pyUpper, data_mk]
  congr 1
  unfold stripChars
  rw [List.dropWhile_map, hfun, ← List.map_reverse, List.dropWhile_map, hfun,
      ← List.map_reverse]

theorem pyLower_pyUpper (s : String) : pyLower (pyUpper s) = pyLower s := by
  simp only [pyLower, pyUpper, data_mk, List.map_map]
  congr 1
  apply List.map_congr_left
  intro c _
  simp [Function.comp, lowerChar_upperChar]

theorem exitRequested_pyStrip (s : String) :
    exitRequested (pyStrip s) = exitRequested s := by
  unfold exitRequested
  rw [pyStrip_pyStrip]

theorem exitRequested_pyUpper_pyStrip (s : String) :
    exitRequested (pyUpper (pyStrip s)) = exitRequested s := by
  unfold exitRequested
  rw [pyStrip_pyUpper, pyStrip_pyStrip, pyLower_pyUpper]

/-! ### Cancellation token lemmas for the six validators -/

theorem isValidAgeAttempt_cancel {raw : String} (h : exitRequested raw = true) :
    isValidAgeAttempt raw = .cancelRequested := by
  simp [isValidAgeAttempt, exitRequested_pyStrip, h]

theorem firstNameAttempt_cancel {raw : String} (h : exitRequested raw = true) :
    firstNameAttempt raw = .cancelRequested := by
  simp [firstNameAttempt, exitRequested_pyStrip, h]

theorem lastNameAttempt_cancel {raw : String} (h : exitRequested raw = true) :
    lastNameAttempt raw = .cancelRequested := by
  simp [lastNameAttempt, exitRequested_pyStrip, h]

theorem countryOfCitizenshipAttempt_cancel {raw : String}
    (h : exitRequested raw = true) :
    countryOfCitizenshipAttempt raw = .cancelRequested := by
  simp [countryOfCitizenshipAttempt, exitRequested_pyStrip, h]

theorem stateOfResidenceAttempt_cancel {raw : String}
    (h : exitRequested raw = true) :
    stateOfResidenceAttempt raw = .cancelRequested := by
  simp [stateOfResidenceAttempt, exitRequested_pyUpper_pyStrip, h]

theorem zipCodeAttempt_cancel {raw : String} (h : exitRequested raw = true) :
    zipCodeAttempt raw = .cancelRequested := by
  simp [zipCodeAttempt, exitRequested_pyStrip, h]

/-! ### Lemmas about the prompt loops -/

theorem yesNo_pyStrip (s : String) : yesNo (pyStrip s) = yesNo s := by
  unfold yesNo
  rw [pyStrip_pyStrip]

theorem askContinue_cons (raw : String) (rest : List String) :
    askContinue (raw :: rest) =
      match yesNo raw with
      | some b => .got b rest
      | none => askContinue rest := by
  simp only [askContinue]
  rw [yesNo_pyStrip]

theorem askContinue_retry {raw : String} {rest : List String}
    (h : yesNo raw = none) : askContinue (raw :: rest) = askContinue rest := by
  rw [askContinue_cons, h]

theorem askContinue_answer {raw : String} {rest : List String} {b : Bool}
    (h : yesNo raw = some b) : askContinue (raw :: rest) = .got b rest := by
  rw [askContinue_cons, h]

theorem yesNo_of_exitRequested {raw : String} (h : exitRequested raw = true) :
    yesNo raw = none := by
  simp only [exitRequested, Bool.or_eq_true, beq_iff_eq] at h
  rcases h with h | h <;> simp [yesNo, h]

/-! ### Decimal strings and digit lemmas -/

theorem digit_bounds {c : Char} (h : isDigitChar c = true) :
    48 ≤ c.toNat ∧ c.toNat ≤ 57 := by
  simpa [isDigitChar] using h

theorem natToDigits_digits : ∀ n : Nat, ∀ c ∈ natToDigits n, isDigitChar c = true := by
  intro n
  induction n using Nat.strong_induction_on with
  | _ n ih =>
    intro c hc
    by_cases h : n < 10
    · rw [natToDigits, dif_pos h] at hc
      simp only [List.mem_singleton] at hc
      subst hc
      have ht : (Char.ofNat (48 + n)).toNat = 48 + n :=
        toNat_ofNat_valid (by omega)
      simp [isDigitChar, ht]
      omega
    · rw [natToDigits, dif_neg h] at hc
      rcases List.mem_append.mp hc with hc | hc
      · exact ih (n / 10) (Nat.div_lt_self (by omega) (by omega)) c hc
      · simp only [List.mem_singleton] at hc
        subst hc
        have ht : (Char.ofNat (48 + n % 10)).toNat = 48 + n % 10 :=
          toNat_ofNat_valid (by omega)
        have hm : n % 10 < 10 := Nat.mod_lt _ (by omega)
        simp [isDigitChar, ht]
        omega

theorem natToDigits_ne_nil (n : Nat) : natToDigits n ≠ [] := by
  rw [natToDigits]
  split <;> simp

theorem digitsToNat_natToDigits : ∀ n : Nat, digitsToNat (natToDigits n) = n := by
  intro n
  induction n using Nat.strong_induction_on with
  | _ n ih =>
    by_cases h : n < 10
    · rw [natToDigits, dif_pos h]
      simp [digitsToNat, toNat_ofNat_valid (show 48 + n < 55296 by omega)]
    · rw [natToDigits, dif_neg h]
      have ht : (Char.ofNat (48 + n % 10)).toNat = 48 + n % 10 :=
        toNat_ofNat_valid (by omega)
      have ihv := ih (n / 10) (Nat.div_lt_self (by omega) (by omega))
      calc digitsToNat (natToDigits (n / 10) ++ [Char.ofNat (48 + n % 10)])
          = 10 * digitsToNat (natToDigits (n / 10)) +
              ((Char.ofNat (48 + n % 10)).toNat - 48) := by
            simp [digitsToNat, List.foldl_append]
        _ = n := by rw [ihv, ht]; omega

theorem ne_exit_quit_of_small {l : List Char} (hd : ∀ c ∈ l, c.toNat < 97) :
    ((⟨l⟩ : String) = "exit" → False) ∧ ((⟨l⟩ : String) = "quit" → False) := by
  refine ⟨fun h => ?_, fun h => ?_⟩
  · have hl : l = ['e', 'x', 'i', 't'] := by
      have := congrArg String.data h
      simpa using this
    have he := hd 'e' (by simp [hl])
    exact absurd he (by decide)
  · have hl : l = ['q', 'u', 'i', 't'] := by
      have := congrArg String.data h
      simpa using this
    have hq := hd 'q' (by simp [hl])
    exact absurd hq (by decide)

theorem pyStrip_mk_eq_self {l : List Char}
    (h : ∀ c ∈ l, isSpaceChar c = false) : pyStrip ⟨l⟩ = ⟨l⟩ := by
  simp only [pyStrip, data_mk]
  exact congrArg String.mk (stripChars_eq_self h)

theorem pyLower_mk_eq_self {l : List Char}
    (h : ∀ c ∈ l, c.toNat < 65) : pyLower ⟨l⟩ = ⟨l⟩ := by
  simp only [pyLower, data_mk]
  refine congrArg String.mk ?_
  rw [List.map_congr_left fun c hc => lowerChar_eq_self_of_lt (h c hc)]
  exact List.map_id l

theorem exitRequested_eq_false {l : List Char}
    (h65 : ∀ c ∈ l, 32 < c.toNat ∧ c.toNat < 65) :
    exitRequested ⟨l⟩ = false := by
  have hsp : ∀ c ∈ l, isSpaceChar c = false := fun c hc => by
    have := h65 c hc
    simp [isSpaceChar]
    omega
  have hne := ne_exit_quit_of_small (l := l) fun c hc => by
    have := (h65 c hc).2
    omega
  unfold exitRequested
  rw [pyStrip_mk_eq_self hsp, pyLower_mk_eq_self fun c hc => (h65 c hc).2]
  simp only [Bool.or_eq_false_iff, beq_eq_false_iff_ne]
  exact ⟨hne.1, hne.2⟩

theorem digits_small {l : List Char} (hd : ∀ c ∈ l, isDigitChar c = true) :
    ∀ c ∈ l, 32 < c.toNat ∧ c.toNat < 65 := fun c hc => by
  have := digit_bounds (hd c hc)
  omega

/-! ### Claim theorems (first batch) -/

/-- C2: for every raw input whose trimmed, case-folded form equals "exit" or
"quit", all six field validators return `cancelRequested`, and at any step of
the pipeline (after a yes answer to the continuation question) such an input
ends the whole run with the field-generic message
"Registration canceled. Goodbye!". -/
theorem claim_C2 (raw : String)
    (h : pyLower (pyStrip raw) = "exit" ∨ pyLower (pyStrip raw) = "quit") :
    (isValidAgeAttempt raw = .cancelRequested ∧
     firstNameAttempt raw = .cancelRequested ∧
     lastNameAttempt raw = .cancelRequested ∧
     countryOfCitizenshipAttempt raw = .cancelRequested ∧
     stateOfResidenceAttempt raw = .cancelRequested ∧
     zipCodeAttempt raw = .cancelRequested) ∧
    ∀ i : Fin 6, ∀ (inputs : List String) (results : List (String × Val)),
      runStepsFrom (steps.drop i.1) ("yes" :: raw :: inputs) results =
        (.cancelled "Registration canceled. Goodbye!", results) := by
  have hex : exitRequested raw = true := by
    simpa [exitRequested] using h
  have h1 := firstNameAttempt_cancel hex
  have h2 := lastNameAttempt_cancel hex
  have h3 := isValidAgeAttempt_cancel hex
  have h4 := countryOfCitizenshipAttempt_cancel hex
  have h5 := stateOfResidenceAttempt_cancel hex
  have h6 := zipCodeAttempt_cancel hex
  have hy : yesNo "yes" = some true := rfl
  refine ⟨⟨h3, h1, h2, h4, h5, h6⟩, ?_⟩
  intro i inputs results
  fin_cases i <;>
    simp [steps, runStepsFrom, askContinue_answer hy, firstNameV, lastNameV,
      isValidAgeV, countryOfCitizenshipV, stateOfResidenceV, zipCodeV,
      runGetter, VOutcome.map, h1, h2, h3, h4, h5, h6]

/-- C2 witness: the concrete input " QUIT " cancels the state validator and,
given at the age step, ends the run with the generic message. -/
theorem claim_C2_witness :
    stateOfResidenceAttempt " QUIT " = .cancelRequested ∧
    runStepsFrom (steps.drop 2) ["yes", " QUIT "] [] =
      (.cancelled "Registration canceled. Goodbye!", []) :=
  ⟨(claim_C2 " QUIT " (by decide)).1.2.2.2.2.1,
   (claim_C2 " QUIT " (by decide)).2 ⟨2, by decide⟩ [] []⟩

/-- C9: at the continuation prompt, inputs recognised as cancellation tokens
by the field validators do not answer the question (`_yes_no` rejects them,
so the prompt re-asks), any non-yes/no answer re-asks, and a yes/no answer is
the only way the prompt returns. -/
theorem claim_C9 :
    (∀ raw : String, exitRequested raw = true → yesNo raw = none) ∧
    (∀ (raw : String) (rest : List String), yesNo raw = none →
        askContinue (raw :: rest) = askContinue rest) ∧
    (∀ (raw : String) (rest : List String) (b : Bool), yesNo raw = some b →
        askContinue (raw :: rest) = .got b rest) :=
  ⟨fun _ h => yesNo_of_exitRequested h,
   fun _ _ h => askContinue_retry h,
   fun _ _ _ h => askContinue_answer h⟩

/-- C9 witness: "exit" does not answer the continuation question, "quit" makes
it re-ask, and "No" answers it with false. -/
theorem claim_C9_witness :
    yesNo "exit" = none ∧
    askContinue ["quit", "y"] = askContinue ["y"] ∧
    askContinue ["No", "x"] = .got false ["x"] :=
  ⟨claim_C9.1 "exit" (by decide),
   claim_C9.2.1 "quit" ["y"] (by decide),
   claim_C9.2.2 "No" ["x"] false (by decide)⟩

/-- C6: if the very first continuation question is answered "no", the run ends
at once with the initial phrasing, reads no further input (the outcome does
not depend on the rest of the script), and the result map is empty. -/
theorem claim_C6 : ∀ rest : List String,
    main ("no" :: rest) =
      (.cancelled "Thanks for trying the Voter Registration Application. Goodbye!",
       []) := by
  intro rest
  rfl

/-- C8: the run is a pure function of its input script: two invocations on
identical scripted input sequences produce identical outcomes and result
maps.  This is faithful to the source because `main` re-creates its `results`
dictionary and step list on every call and no module-level state is ever
mutated. -/
theorem claim_C8 (s t : List String) (h : s = t) : main s = main t := by
  rw [h]

/-- C8 witness: instantiated at a concrete script. -/
theorem claim_C8_witness : main ["no"] = main ["no"] :=
  claim_C8 ["no"] ["no"] rfl

/-- C1 counterexample: on the literal seven-line script of the claim the run
does not complete; after the initial yes, the per-step continuation prompt
consumes "Ann", "Lee" and "25" as failed yes/no answers, "yes" answers it,
"MD" is accepted as the first name, and the script runs out — the run is left
waiting for input, not `completed`. -/
theorem claim_C1_counterexample :
    (main ["yes", "Ann", "Lee", "25", "yes", "MD", "21201"]).1 = Outcome.stuck ∧
    (main ["yes", "Ann", "Lee", "25", "yes", "MD", "21201"]).1 ≠
      Outcome.completed (completedRecord "Ann" "Lee" 25 true "MD" "21201") := by
  constructor
  · decide
  · decide

/-- C1 (amended): with a yes answer supplied to every continuation prompt (the
initial one and the one before each of the six steps), the scripted field
inputs Ann, Lee, 25, yes, MD, 21201 complete the run with the claimed
record. -/
theorem claim_C1 :
    (main ["yes", "yes", "Ann", "yes", "Lee", "yes", "25", "yes", "yes", "yes",
           "MD", "yes", "21201"]).1 =
      Outcome.completed (completedRecord "Ann" "Lee" 25 true "MD" "21201") := by
  decide

theorem exists_five {α : Type} {a : List α} (h : a.length = 5) :
    ∃ x1 x2 x3 x4 x5, a = [x1, x2, x3, x4, x5] := by
  rcases a with _ | ⟨x1, a⟩
  · simp at h
  rcases a with _ | ⟨x2, a⟩
  · simp at h
  rcases a with _ | ⟨x3, a⟩
  · simp at h
  rcases a with _ | ⟨x4, a⟩
  · simp at h
  rcases a with _ | ⟨x5, a⟩
  · simp at h
  rcases a with _ | ⟨x6, a⟩
  · exact ⟨x1, x2, x3, x4, x5, rfl⟩
  · simp at h

theorem exists_four {α : Type} {a : List α} (h : a.length = 4) :
    ∃ x1 x2 x3 x4, a = [x1, x2, x3, x4] := by
  rcases a with _ | ⟨x1, a⟩
  · simp at h
  rcases a with _ | ⟨x2, a⟩
  · simp at h
  rcases a with _ | ⟨x3, a⟩
  · simp at h
  rcases a with _ | ⟨x4, a⟩
  · simp at h
  rcases a with _ | ⟨x5, a⟩
  · exact ⟨x1, x2, x3, x4, rfl⟩
  · simp at h

theorem shape_all {s : String} (h : zipShape s) :
    ∀ c ∈ s.data, isDigitChar c = true ∨ c = '-' := by
  rcases h with ⟨_, hd⟩ | ⟨a, b, hdata, _, _, hda, hdb⟩
  · exact fun c hc => Or.inl (hd c hc)
  · intro c hc
    rw [hdata] at hc
    rcases List.mem_append.mp hc with hc | hc
    · exact Or.inl (hda c hc)
    · rcases List.mem_cons.mp hc with hc | hc
      · exact Or.inr hc
      · exact Or.inl (hdb c hc)

theorem shape_len {s : String} (h : zipShape s) :
    s.data.length = 5 ∨ s.data.length = 10 := by
  rcases h with ⟨hlen, _⟩ | ⟨a, b, hdata, ha, hb, _, _⟩
  · exact Or.inl hlen
  · right
    rw [hdata]
    simp [ha, hb]

theorem zipOk_of_shape {s : String} (h : zipShape s) : zipOk s.data = true := by
  rcases h with ⟨hlen, hd⟩ | ⟨a, b, hdata, ha, hb, hda, hdb⟩
  · obtain ⟨x1, x2, x3, x4, x5, hx⟩ := exists_five hlen
    rw [hx] at hd ⊢
    simp [zipOk, hd x1 (by simp), hd x2 (by simp), hd x3 (by simp),
      hd x4 (by simp), hd x5 (by simp)]
  · obtain ⟨x1, x2, x3, x4, x5, hx⟩ := exists_five ha
    obtain ⟨y1, y2, y3, y4, hy⟩ := exists_four hb
    subst hx hy
    rw [hdata]
    simp [zipOk, hda x1 (by simp), hda x2 (by simp), hda x3 (by simp),
      hda x4 (by simp), hda x5 (by simp), hdb y1 (by simp), hdb y2 (by simp),
      hdb y3 (by simp), hdb y4 (by simp)]

theorem zipOk_length {l : List Char} (h : zipOk l = true) :
    l.length = 5 ∨ l.length = 10 := by
  unfold zipOk at h
  split at h
  · left
    simp
  · right
    simp
  · simp at h

theorem zipCodeAttempt_retry_shape {l : List Char}
    (hall : ∀ c ∈ l, isDigitChar c = true ∨ c = '-')
    (h5 : l.length ≠ 5) (h10 : l.length ≠ 10) :
    zipCodeAttempt ⟨l⟩ = .retry := by
  have h65 : ∀ c ∈ l, 32 < c.toNat ∧ c.toNat < 65 := by
    intro c hc
    rcases hall c hc with h | h
    · have := digit_bounds h
      omega
    · subst h
      decide
  have hsp : ∀ c ∈ l, isSpaceChar c = false := fun c hc => by
    have := h65 c hc
    simp [isSpaceChar]
    omega
  have hst := pyStrip_mk_eq_self hsp
  have hex := exitRequested_eq_false h65
  have hz : zipOk l = false := by
    cases hzz : zipOk l with
    | false => rfl
    | true =>
      rcases zipOk_length hzz with h | h
      · exact absurd h h5
      · exact absurd h h10
  simp [zipCodeAttempt, hst, hex, hz, data_mk]

/-- C4: ZIP validation accepts (with the entered string) every string of
exactly five digits or five digits, hyphen, four digits; and removing any one
character from such a string, or inserting one digit at any position, yields
an input on which it returns a retry. -/
theorem claim_C4 :
    (∀ s : String, zipShape s → zipCodeAttempt s = .accepted s) ∧
    (∀ (s : String) (i : Nat), zipShape s → i < s.data.length →
        zipCodeAttempt ⟨s.data.eraseIdx i⟩ = .retry) ∧
    (∀ (s : String) (i : Nat) (c : Char), zipShape s → i ≤ s.data.length →
        isDigitChar c = true →
        zipCodeAttempt ⟨s.data.insertIdx i c⟩ = .retry) := by
  refine ⟨?_, ?_, ?_⟩
  · intro s h
    have hall := shape_all h
    have h65 : ∀ c ∈ s.data, 32 < c.toNat ∧ c.toNat < 65 := by
      intro c hc
      rcases hall c hc with hcd | hcd
      · have := digit_bounds hcd
        omega
      · subst hcd
        decide
    have hsp : ∀ c ∈ s.data, isSpaceChar c = false := fun c hc => by
      have := h65 c hc
      simp [isSpaceChar]
      omega
    have hst : pyStrip s = s := pyStrip_mk_eq_self hsp
    have hex : exitRequested s = false := exitRequested_eq_false h65
    have hz := zipOk_of_shape h
    simp [zipCodeAttempt, hst, hex, hz]
  · intro s i h hi
    apply zipCodeAttempt_retry_shape
    · exact fun c hc => shape_all h c (List.eraseIdx_subset _ _ hc)
    · rw [List.length_eraseIdx_of_lt hi]
      rcases shape_len h with hl | hl <;> omega
    · rw [List.length_eraseIdx_of_lt hi]
      rcases shape_len h with hl | hl <;> omega
  · intro s i c h hi hc
    apply zipCodeAttempt_retry_shape
    · intro d hd
      rcases (List.mem_insertIdx hi).mp hd with hde | hdm
      · subst hde
        exact Or.inl hc
      · exact shape_all h d hdm
    · rw [List.length_insertIdx _ _ hi]
      rcases shape_len h with hl | hl <;> omega
    · rw [List.length_insertIdx _ _ hi]
      rcases shape_len h with hl | hl <;> omega

/-- C4 witness: the valid ZIP "21201", the same with its middle digit removed,
and the same with an extra digit inserted. -/
theorem claim_C4_witness :
    zipCodeAttempt "21201" = .accepted "21201" ∧
    zipCodeAttempt ⟨("21201" : String).data.eraseIdx 2⟩ = .retry ∧
    zipCodeAttempt ⟨("21201" : String).data.insertIdx 2 '7'⟩ = .retry :=
  ⟨claim_C4.1 "21201" (Or.inl (by decide)),
   claim_C4.2.1 "21201" 2 (Or.inl (by decide)) (by decide),
   claim_C4.2.2 "21201" 2 '7' (Or.inl (by decide)) (by decide) (by decide)⟩

/-- C5: for both guarded steps, when the step's getter accepts a value that
the guard rejects (age under 18, citizenship false), the run ends with the
guard's own message, distinct from the generic cancellation message, and the
result map is returned unchanged — no entry for the step's field is added. -/
theorem claim_C5 :
    (∀ (inputs : List String) (results : List (String × Val)) (a : Nat)
        (rest : List String),
        isValidAgeV inputs = .ok (Val.n a) rest → a < 18 →
        runStepsFrom (steps.drop 2) ("yes" :: inputs) results =
          (.cancelled "Thanks for trying the Voter Registration Application.",
           results)) ∧
    (∀ (inputs : List String) (results : List (String × Val))
        (rest : List String),
        countryOfCitizenshipV inputs = .ok (Val.b false) rest →
        runStepsFrom (steps.drop 3) ("yes" :: inputs) results =
          (.cancelled "Thanks for trying the Voter Registration Application.",
           results)) ∧
    "Thanks for trying the Voter Registration Application." ≠
      "Registration canceled. Goodbye!" := by
  have hy : yesNo "yes" = some true := rfl
  refine ⟨?_, ?_, by decide⟩
  · intro inputs results a rest hok ha
    simp [steps, runStepsFrom, askContinue_answer hy, hok, ageCheckVal,
      ageCheck, ha]
  · intro inputs results rest hok
    simp [steps, runStepsFrom, askContinue_answer hy, hok, citizenCheckVal,
      citizenCheck]

/-- Evaluation of the age validator on the canonical digit string of `m`. -/
theorem isValidAgeAttempt_digits (m : Nat) :
    isValidAgeAttempt ⟨natToDigits m⟩ =
      if m ≤ 120 then .accepted m else .retry := by
  have hd := natToDigits_digits m
  have h65 := digits_small hd
  have hsp : ∀ c ∈ natToDigits m, isSpaceChar c = false := fun c hc => by
    have := h65 c hc
    simp [isSpaceChar]
    omega
  have hst := pyStrip_mk_eq_self hsp
  have hex := exitRequested_eq_false h65
  have hdig : pyIsDigit ⟨natToDigits m⟩ = true := by
    simp [pyIsDigit, natToDigits_ne_nil, List.all_eq_true, List.isEmpty_iff]
    exact hd
  simp [isValidAgeAttempt, hst, hex, hdig, data_mk, digitsToNat_natToDigits]

/-- C3: age validation accepts the decimal string of every integer in
`[0, 120]` with its numeric value, rejects with a retry the decimal string of
every integer above 120 or below 0, and rejects with a retry every
non-numeric input that is not a cancellation token. -/
theorem claim_C3 :
    (∀ n : Int, 0 ≤ n → n ≤ 120 →
        isValidAgeAttempt (intDecStr n) = .accepted n.toNat) ∧
    (∀ n : Int, 120 < n → isValidAgeAttempt (intDecStr n) = .retry) ∧
    (∀ n : Int, n < 0 → isValidAgeAttempt (intDecStr n) = .retry) ∧
    (∀ raw : String, exitRequested raw = false →
        pyIsDigit (pyStrip raw) = false → isValidAgeAttempt raw = .retry) := by
  refine ⟨?_, ?_, ?_, ?_⟩
  · intro n h0 h120
    rw [intDecStr, if_neg (by omega), isValidAgeAttempt_digits,
        if_pos (by omega)]
    have hab : n.natAbs = n.toNat := by omega
    rw [hab]
  · intro n h120
    rw [intDecStr, if_neg (by omega), isValidAgeAttempt_digits,
        if_neg (by omega)]
  · intro n hneg
    rw [intDecStr, if_pos hneg]
    have hd := natToDigits_digits n.natAbs
    have h45 : (Char.ofNat 45).toNat = 45 := toNat_ofNat_valid (by omega)
    have h65 : ∀ c ∈ Char.ofNat 45 :: natToDigits n.natAbs,
        32 < c.toNat ∧ c.toNat < 65 := by
      intro c hc
      rcases List.mem_cons.mp hc with hc | hc
      · subst hc
        omega
      · exact digits_small hd c hc
    have hsp : ∀ c ∈ Char.ofNat 45 :: natToDigits n.natAbs,
        isSpaceChar c = false := fun c hc => by
      have := h65 c hc
      simp [isSpaceChar]
      omega
    have hst := pyStrip_mk_eq_self hsp
    have hex := exitRequested_eq_false h65
    have hdig : pyIsDigit ⟨Char.ofNat 45 :: natToDigits n.natAbs⟩ = false := by
      simp [pyIsDigit, List.all_cons,
        show isDigitChar (Char.ofNat 45) = false by decide]
    simp [isValidAgeAttempt, hst, hex, hdig]
  · intro raw hex hdig
    simp [isValidAgeAttempt, exitRequested_pyStrip, hex, hdig]

/-- C3 witness: ages 25, 121, -3 and the non-numeric input "abc". -/
theorem claim_C3_witness :
    isValidAgeAttempt (intDecStr 25) = .accepted 25 ∧
    isValidAgeAttempt (intDecStr 121) = .retry ∧
    isValidAgeAttempt (intDecStr (-3)) = .retry ∧
    isValidAgeAttempt "abc" = .retry :=
  ⟨claim_C3.1 25 (by decide) (by decide),
   claim_C3.2.1 121 (by decide),
   claim_C3.2.2.1 (-3) (by decide),
   claim_C3.2.2.2 "abc" (by decide) (by decide)⟩

/-! ### Inversion lemmas for completed runs -/

theorem askContinue_cases (inputs : List String) :
    askContinue inputs = .stuck ∨ ∃ b rest, askContinue inputs = .got b rest := by
  induction inputs with
  | nil => exact Or.inl rfl
  | cons raw rest ih =>
    rw [askContinue_cons]
    cases h : yesNo raw with
    | some b => exact Or.inr ⟨b, rest, rfl⟩
    | none => exact ih

theorem runGetter_ok {α : Type} {att : String → VOutcome α} :
    ∀ {inputs : List String} {v : α} {rest : List String},
      runGetter att inputs = .ok v rest → ∃ raw, att raw = .accepted v := by
  intro inputs
  induction inputs with
  | nil => intro v rest h; simp [runGetter] at h
  | cons raw rs ih =>
    intro v rest h
    simp only [runGetter] at h
    cases ha : att raw with
    | accepted w =>
      rw [ha] at h
      simp at h
      exact ⟨raw, by rw [ha, h.1]⟩
    | cancelRequested => rw [ha] at h; simp at h
    | retry => rw [ha] at h; exact ih h

theorem VOutcome_map_accepted {α β : Type} {f : α → β} {x : VOutcome α} {w : β}
    (h : x.map f = .accepted w) : ∃ u, x = .accepted u ∧ w = f u := by
  cases x with
  | accepted u =>
    simp [VOutcome.map] at h
    exact ⟨u, rfl, h.symm⟩
  | retry => simp [VOutcome.map] at h
  | cancelRequested => simp [VOutcome.map] at h

theorem isValidAgeAttempt_accept {raw : String} {v : Nat}
    (h : isValidAgeAttempt raw = .accepted v) : v ≤ 120 := by
  simp only [isValidAgeAttempt] at h
  split at h
  · simp at h
  · split at h
    · next hcond =>
      simp only [Bool.and_eq_true, decide_eq_true_eq] at hcond
      simp at h
      omega
    · simp at h

theorem firstNameAttempt_accept {raw : String} {v : String}
    (h : firstNameAttempt raw = .accepted v) : nameOk v.data = true := by
  simp only [firstNameAttempt] at h
  split at h
  · simp at h
  · split at h
    · next hcond =>
      simp at h
      rw [← h]
      exact hcond
    · simp at h

theorem lastNameAttempt_accept {raw : String} {v : String}
    (h : lastNameAttempt raw = .accepted v) : nameOk v.data = true := by
  simp only [lastNameAttempt] at h
  split at h
  · simp at h
  · split at h
    · next hcond =>
      simp at h
      rw [← h]
      exact hcond
    · simp at h

theorem stateOfResidenceAttempt_accept {raw : String} {v : String}
    (h : stateOfResidenceAttempt raw = .accepted v) :
    v.data.length = 2 ∧ v ∈ stateOfResidenceHM := by
  simp only [stateOfResidenceAttempt] at h
  split at h
  · simp at h
  · split at h
    · next hcond =>
      simp only [Bool.and_eq_true, beq_iff_eq] at hcond
      simp at h
      rw [← h]
      exact ⟨hcond.1, List.elem_iff.mp hcond.2⟩
    · simp at h

theorem zipCodeAttempt_accept {raw : String} {v : String}
    (h : zipCodeAttempt raw = .accepted v) : zipOk v.data = true := by
  simp only [zipCodeAttempt] at h
  split at h
  · simp at h
  · split at h
    · next hcond =>
      simp at h
      rw [← h]
      exact hcond
    · simp at h

theorem step_completed {st : Step} {stRest : List Step} {inputs : List String}
    {results r m : List (String × Val)}
    (h : runStepsFrom (st :: stRest) inputs results = (.completed r, m)) :
    ∃ inputs1 inputs2 v,
      st.getter inputs1 = .ok v inputs2 ∧
      (st.postCheck = none ∨ ∃ chk, st.postCheck = some chk ∧ chk v = none) ∧
      runStepsFrom stRest inputs2 (results ++ [(st.key, v)]) = (.completed r, m) := by
  simp only [runStepsFrom] at h
  rcases askContinue_cases inputs with h0 | ⟨b0, rest0, h0⟩
  · rw [h0] at h
    simp at h
  · rw [h0] at h
    cases b0
    · simp at h
    · dsimp only at h
      cases hg : st.getter rest0 with
      | stuck => rw [hg] at h; simp at h
      | cancel rest2 => rw [hg] at h; simp at h
      | ok v inputs2 =>
        rw [hg] at h
        dsimp only at h
        cases hpc : st.postCheck with
        | none =>
          rw [hpc] at h
          dsimp only at h
          exact ⟨rest0, inputs2, v, hg, Or.inl rfl, h⟩
        | some chk =>
          rw [hpc] at h
          dsimp only at h
          cases hck : chk v with
          | none =>
            rw [hck] at h
            dsimp only at h
            exact ⟨rest0, inputs2, v, hg, Or.inr ⟨chk, rfl, hck⟩, h⟩
          | some reason => rw [hck] at h; simp at h

theorem main_completed (inputs : List String) (r m : List (String × Val))
    (h : main inputs = (.completed r, m)) : completedSpec r := by
  unfold main at h
  rcases askContinue_cases inputs with h0 | ⟨b0, rest0, h0⟩
  · rw [h0] at h
    simp at h
  · rw [h0] at h
    cases b0
    · simp at h
    · simp only [steps] at h
      obtain ⟨i1, i2, v1, hg1, _, h⟩ := step_completed h
      obtain ⟨i3, i4, v2, hg2, _, h⟩ := step_completed h
      obtain ⟨i5, i6, v3, hg3, hpc3, h⟩ := step_completed h
      obtain ⟨i7, i8, v4, hg4, hpc4, h⟩ := step_completed h
      obtain ⟨i9, i10, v5, hg5, _, h⟩ := step_completed h
      obtain ⟨i11, i12, v6, hg6, _, h⟩ := step_completed h
      simp only [runStepsFrom, Prod.mk.injEq, Outcome.completed.injEq] at h
      obtain ⟨hr, _⟩ := h
      obtain ⟨raw1, ha1⟩ := runGetter_ok hg1
      obtain ⟨f, hf, hv1⟩ := VOutcome_map_accepted ha1
      obtain ⟨raw2, ha2⟩ := runGetter_ok hg2
      obtain ⟨l, hl, hv2⟩ := VOutcome_map_accepted ha2
      obtain ⟨raw3, ha3⟩ := runGetter_ok hg3
      obtain ⟨a, hage, hv3⟩ := VOutcome_map_accepted ha3
      obtain ⟨raw4, ha4⟩ := runGetter_ok hg4
      obtain ⟨c, hcit, hv4⟩ := VOutcome_map_accepted ha4
      obtain ⟨raw5, ha5⟩ := runGetter_ok hg5
      obtain ⟨st, hstt, hv5⟩ := VOutcome_map_accepted ha5
      obtain ⟨raw6, ha6⟩ := runGetter_ok hg6
      obtain ⟨z, hz, hv6⟩ := VOutcome_map_accepted ha6
      have h18 : 18 ≤ a := by
        rcases hpc3 with hpc3 | ⟨chk, hchk, hcknone⟩
        · simp at hpc3
        · have hchk2 : chk = ageCheckVal := by
            simp only [Option.some.injEq] at hchk
            exact hchk.symm
          subst hchk2
          rw [hv3] at hcknone
          simp only [ageCheckVal, ageCheck] at hcknone
          by_contra hlt
          rw [if_pos (by omega)] at hcknone
          simp at hcknone
      have hctrue : c = true := by
        rcases hpc4 with hpc4 | ⟨chk, hchk, hcknone⟩
        · simp at hpc4
        · have hchk2 : chk = citizenCheckVal := by
            simp only [Option.some.injEq] at hchk
            exact hchk.symm
          subst hchk2
          rw [hv4] at hcknone
          simp only [citizenCheckVal, citizenCheck] at hcknone
          cases c
          · simp at hcknone
          · rfl
      refine ⟨f, l, a, c, st, z, ?_, firstNameAttempt_accept hf,
        lastNameAttempt_accept hl, isValidAgeAttempt_accept hage, h18, hctrue,
        (stateOfResidenceAttempt_accept hstt).1,
        (stateOfResidenceAttempt_accept hstt).2, zipCodeAttempt_accept hz⟩
      rw [← hr, hv1, hv2, hv3, hv4, hv5, hv6]
      simp [completedRecord]

/-- C7: whenever a run of the pipeline ends with the `completed` outcome, the
result record contains an accepted value for all six fields in step order —
each value passed its field's validator and both eligibility guards passed —
so no step was skipped.  (The embedding yields exactly one outcome value per
run by construction; `stuck` marks a run still waiting for input, which is
not a terminal outcome.) -/
theorem claim_C7 : ∀ (inputs : List String) (r m : List (String × Val)),
    main inputs = (Outcome.completed r, m) → completedSpec r :=
  fun inputs r m h => main_completed inputs r m h

/-- C7 witness: the completed run of the full thirteen-line script. -/
theorem claim_C7_witness :
    completedSpec (completedRecord "Ann" "Lee" 25 true "MD" "21201") :=
  claim_C7
    ["yes", "yes", "Ann", "yes", "Lee", "yes", "25", "yes", "yes", "yes",
     "MD", "yes", "21201"]
    (completedRecord "Ann" "Lee" 25 true "MD" "21201")
    (completedRecord "Ann" "Lee" 25 true "MD" "21201")
    (by decide)

/-- C10: every record carried by a `completed` outcome satisfies the
eligibility guards: its stored age is at least 18 and its stored citizenship
value is `true` — which is why the success summary may print the citizenship
line unconditionally. -/
theorem claim_C10 : ∀ (inputs : List String) (r m : List (String × Val)),
    main inputs = (Outcome.completed r, m) →
    ∃ a : Nat, ("age", Val.n a) ∈ r ∧ 18 ≤ a ∧ ("citizen", Val.b true) ∈ r := by
  intro inputs r m h
  obtain ⟨f, l, a, c, st, z, hr, _, _, _, h18, hc, _, _, _⟩ :=
    main_completed inputs r m h
  subst hc
  exact ⟨a, by simp [hr, completedRecord], h18, by simp [hr, completedRecord]⟩

/-- C10 witness: the completed run of the full thirteen-line script stores age
25 and citizenship true. -/
theorem claim_C10_witness :
    ∃ a : Nat,
      ("age", Val.n a) ∈ completedRecord "Ann" "Lee" 25 true "MD" "21201" ∧
      18 ≤ a ∧
      ("citizen", Val.b true) ∈ completedRecord "Ann" "Lee" 25 true "MD" "21201" :=
  claim_C10
    ["yes", "yes", "Ann", "yes", "Lee", "yes", "25", "yes", "yes", "yes",
     "MD", "yes", "21201"]
    (completedRecord "Ann" "Lee" 25 true "MD" "21201")
    (completedRecord "Ann" "Lee" 25 true "MD" "21201")
    (by decide)

/-- C5 witness: age 16 and citizenship "no" at the respective steps. -/
theorem claim_C5_witness :
    runStepsFrom (steps.drop 2) ["yes", "16"] [] =
      (.cancelled "Thanks for trying the Voter Registration Application.",
       []) ∧
    runStepsFrom (steps.drop 3) ["yes", "no"] [] =
      (.cancelled "Thanks for trying the Voter Registration Application.",
       []) :=
  ⟨claim_C5.1 ["16"] [] 16 [] (by decide) (by decide),
   claim_C5.2.1 ["no"] [] [] (by decide)⟩

end CYOP300
